import Mathlib

/-!
Shallow embedding of the realtime audio bridge of the Twilio AI calling app
(app/services/realtime_bridge.py together with the media websocket loop of
app/main.py).

Audio payloads travel as base64 text.  The bridge decodes them, converts
between the telephony format (8 kHz mu-law bytes) and the model format
(24 kHz 16-bit linear PCM) using the CPython audioop primitives
(ulaw2lin, lin2ulaw, ratecv with width 2 and one channel), and re-encodes.
The codec layer below embeds those library routines; bytes are naturals
below 256, samples are integers, fragments are lists in stream order.
Loops that are not structurally recursive in the C sources (gcd, the
ratecv emission loop) are given explicit fuel so that every definition
evaluates inside the kernel; the fuel is always sufficient, as proved or
commented at each site.
-/

/-- Standard base64 alphabet, as used by the base64 module for encoding
and (strict) decoding of audio payloads. -/
def b64Alphabet : List Char :=
  "ABCDEFGHIJKLMNOPQRSTUVWXYZabcdefghijklmnopqrstuvwxyz0123456789+/".data

/-- The character encoding a 6-bit group. -/
def encodeChar (k : Nat) : Char := b64Alphabet.getD k 'A'

/-- The 6-bit group encoded by a character, if any. -/
def decodeChar (c : Char) : Option Nat := b64Alphabet.findIdx? (fun x => x == c)

/-- base64 encoding of a byte list, three bytes to four characters, with
padding on the final partial group. -/
def b64encodeGroups : List Nat → List Char
  | [] => []
  | [a] => [encodeChar (a / 4), encodeChar (a % 4 * 16), '=', '=']
  | [a, b] => [encodeChar (a / 4), encodeChar (a % 4 * 16 + b / 16),
               encodeChar (b % 16 * 4), '=']
  | a :: b :: c :: rest =>
      encodeChar (a / 4) :: encodeChar (a % 4 * 16 + b / 16) ::
      encodeChar (b % 16 * 4 + c / 64) :: encodeChar (c % 64) ::
      b64encodeGroups rest

/-- base64 decoding of a character list: groups of four characters yield
three bytes, padding is accepted only at the end, anything else fails
(the Python binascii failure surfaces as ValueError, caught by the
conversion helpers). -/
def b64decodeGroups : List Char → Option (List Nat)
  | [] => some []
  | c1 :: c2 :: c3 :: c4 :: rest =>
      match decodeChar c1, decodeChar c2 with
      | some k1, some k2 =>
          if c3 = '=' then
            if c4 = '=' ∧ rest = [] then some [k1 * 4 + k2 / 16] else none
          else
            match decodeChar c3 with
            | some k3 =>
                if c4 = '=' then
                  if rest = [] then some [k1 * 4 + k2 / 16, k2 % 16 * 16 + k3 / 4]
                  else none
                else
                  match decodeChar c4 with
                  | some k4 =>
                      (b64decodeGroups rest).map
                        (fun t => (k1 * 4 + k2 / 16) :: (k2 % 16 * 16 + k3 / 4) ::
                                  (k3 % 4 * 64 + k4) :: t)
                  | none => none
            | none => none
      | _, _ => none
  | _ => none

/-- base64.b64encode on a byte fragment, result as text. -/
def b64encode (bs : List Nat) : String := String.mk (b64encodeGroups bs)

/-- base64.b64decode on text, none on malformed input. -/
def b64decode (s : String) : Option (List Nat) := b64decodeGroups s.data

/-- A 16-bit linear sample stored as two little-endian bytes, two's
complement, exactly as audioop stores width-2 fragments. -/
def sampleToBytePair (s : Int) : List Nat :=
  let v := (Int.emod s 65536).toNat
  [v % 256, v / 256]

/-- Serialise a sample list into a width-2 byte fragment. -/
def samplesToBytes (xs : List Int) : List Nat := xs.flatMap sampleToBytePair

/-- Parse a width-2 byte fragment into signed 16-bit samples; fails when
the fragment length is not a multiple of the sample width, which is the
audioop error condition for width-2 mono fragments. -/
def bytesToSamples : List Nat → Option (List Int)
  | [] => some []
  | lo :: hi :: rest =>
      (bytesToSamples rest).map (fun t =>
        (let v : Nat := lo % 256 + 256 * (hi % 256)
         if v < 32768 then (v : Int) else (v : Int) - 65536) :: t)
  | [_] => none

/-- st_ulaw2linear16 from audioop: one mu-law byte to a 16-bit sample. -/
def st_ulaw2linear16 (u : Nat) : Int :=
  let uc := (u % 256) ^^^ 255
  let t0 := ((uc &&& 0xF) <<< 3) + 0x84
  let t := t0 <<< ((uc &&& 0x70) >>> 4)
  if uc &&& 0x80 ≠ 0 then (0x84 : Int) - (t : Int) else (t : Int) - 0x84

/-- Segment ends used by the mu-law encoder search. -/
def segUend : List Nat := [0x3F, 0x7F, 0xFF, 0x1FF, 0x3FF, 0x7FF, 0xFFF, 0x1FFF]

/-- st_14linear2ulaw from audioop: a 14-bit linear sample (the 16-bit
sample arithmetically shifted right by two) to one mu-law byte. -/
def st_14linear2ulaw (pcm : Int) : Nat :=
  let mask : Nat := if pcm < 0 then 0x7F else 0xFF
  let mag : Nat := if pcm < 0 then (-pcm).toNat else pcm.toNat
  let clipped : Nat := min mag 8159
  let biased : Nat := clipped + 33
  let seg : Nat := segUend.findIdx (fun e => biased ≤ e)
  if 8 ≤ seg then 0x7F ^^^ mask
  else ((seg <<< 4) ||| ((biased >>> (seg + 1)) &&& 0xF)) ^^^ mask

/-- audioop.ulaw2lin with width 2: decode each mu-law byte and store the
16-bit samples little-endian. -/
def audioop_ulaw2lin (bs : List Nat) : List Nat :=
  samplesToBytes (bs.map st_ulaw2linear16)

/-- audioop.lin2ulaw with width 2: parse 16-bit samples (failing on odd
fragment length), shift each arithmetically right by two and encode. -/
def audioop_lin2ulaw (bs : List Nat) : Option (List Nat) :=
  (bytesToSamples bs).map (List.map (fun s => st_14linear2ulaw (Int.fdiv s 4)))

/-- Euclid with explicit fuel; natGcd below always supplies enough. -/
def natGcdFuel : Nat → Nat → Nat → Nat
  | 0, _, n => n
  | fuel + 1, m, n => if m = 0 then n else natGcdFuel fuel (n % m) m

/-- gcd as computed inside audioop.ratecv to reduce the rate ratio.  The
first argument strictly decreases at every step, so fuel m + 1 always
suffices and the function agrees with Nat.gcd. -/
def natGcd (m n : Nat) : Nat := natGcdFuel (m + 1) m n

/-- The inner emission loop of audioop.ratecv: while d is nonnegative,
emit the linear interpolation of the previous and current frame and
decrease d by the (reduced) input rate.  Fuel bounds the iteration count;
ratecvEmit supplies d.toNat + 1, enough whenever inr is at least one. -/
def ratecvEmitFuel : Nat → Nat → Int → Int → Int → Int → List Int × Int
  | 0, _, _, _, _, d => ([], d)
  | fuel + 1, inr, outr, prev, cur, d =>
      if d < 0 then ([], d)
      else
        let o := Int.fdiv (prev * d + cur * (outr - d)) outr
        let r := ratecvEmitFuel fuel inr outr prev cur (d - inr)
        (o :: r.1, r.2)

/-- Emission phase of ratecv for one ingested frame: outputs plus the
final value of d. -/
def ratecvEmit (inr : Nat) (outr prev cur d : Int) : List Int × Int :=
  ratecvEmitFuel (d.toNat + 1) inr outr prev cur d

/-- The frame loop of audioop.ratecv: ingest one frame (the current
sample becomes the previous one, d grows by the reduced output rate),
run the emission phase, continue with the returned d.  This is the
standard per-frame restructuring of the two nested while loops of the C
source; a frame that leaves d negative simply emits nothing, which is
exactly the read-again branch of the outer loop. -/
def ratecvGo (inr : Nat) (outr : Int) (cur d : Int) : List Int → List Int
  | [] => []
  | x :: xs =>
      let r := ratecvEmit inr outr cur x (d + outr)
      r.1 ++ ratecvGo inr outr x r.2 xs

/-- audioop.ratecv with width 2 and one channel, fresh state (the bridge
always passes None as state): reduce the ratio, start from d equal to
minus the reduced output rate with zero previous and current samples,
run the frame loop, re-serialise.  Fails on nonpositive rates or a
fragment length that is not a multiple of the width. -/
def audioop_ratecv (bs : List Nat) (inrate outrate : Nat) : Option (List Nat) :=
  if inrate = 0 ∨ outrate = 0 then none
  else
    match bytesToSamples bs with
    | none => none
    | some xs =>
        let g := natGcd inrate outrate
        let inr := inrate / g
        let outr := outrate / g
        some (samplesToBytes (ratecvGo inr (outr : Int) 0 (-(outr : Int)) xs))

/-!
The bridge itself: OpenAIRealtimeBridge from app/services/realtime_bridge.py.
The mutable dataclass state is a structure, each coroutine is a pure
function from state to new state plus the messages it sends: OutMsg for
text frames sent over the model websocket (plus the closing of that
websocket), TwMsg for frames sent back over the Twilio websocket.  The
exception handlers of the conversion helpers surface as Option results.
-/

/-- Frames the bridge sends over the model websocket, in order, plus the
closing of that connection. -/
inductive OutMsg where
  | sessionUpdate (instructions voice : String)
  | inputAudioAppend (audio : String)
  | inputAudioCommit
  | responseCreate (instructions : Option String)
  | wsClose
deriving DecidableEq, Repr

/-- Frames the bridge sends back over the Twilio websocket. -/
inductive TwMsg where
  | mark (streamSid name : String)
  | media (streamSid payload : String)
deriving DecidableEq, Repr

/-- The OpenAIRealtimeBridge dataclass state: the constructor fields that
matter to the protocol plus the init=False fields.  openaiWs records
whether the model websocket handle is set, bridgeTask whether the
background task handle is set. -/
structure Bridge where
  streamSid : String
  prompt : String
  voice : String
  openaiWs : Bool
  buffer : List String
  waitingForResponse : Bool
  bridgeTask : Bool
  flushThreshold : Nat
deriving DecidableEq, Repr

/-- A freshly constructed bridge: no websocket, empty buffer, not
waiting, no task, flush threshold 8. -/
def mkBridge (sid prompt voice : String) : Bridge :=
  ⟨sid, prompt, voice, false, [], false, false, 8⟩

/-- _convert_twilio_to_openai: base64-decode, mu-law to 16-bit linear,
resample 8 kHz to 24 kHz, base64-encode; any failure is caught and
yields None. -/
def convertTwilioToOpenai (p : String) : Option String :=
  match b64decode p with
  | none => none
  | some mulawAudio =>
      let linearPcm := audioop_ulaw2lin mulawAudio
      match audioop_ratecv linearPcm 8000 24000 with
      | none => none
      | some converted => some (b64encode converted)

/-- _convert_openai_to_twilio: base64-decode, resample 24 kHz to 8 kHz,
16-bit linear to mu-law, base64-encode; any failure is caught and yields
None. -/
def convertOpenaiToTwilioAudio (p : String) : Option String :=
  match b64decode p with
  | none => none
  | some pcmAudio =>
      match audioop_ratecv pcmAudio 24000 8000 with
      | none => none
      | some converted =>
          match audioop_lin2ulaw converted with
          | none => none
          | some mulawAudio => some (b64encode mulawAudio)

/-- _flush_audio_buffer: a no-op when the buffer is empty or the model
websocket is absent; otherwise send one input_audio_buffer.append per
buffered chunk in order, then one commit, then one response.create, set
the waiting flag and clear the buffer. -/
def flushAudioBuffer (s : Bridge) : Bridge × List OutMsg :=
  if s.buffer = [] ∨ s.openaiWs = false then (s, [])
  else
    ({ s with waitingForResponse := true, buffer := [] },
     s.buffer.map OutMsg.inputAudioAppend ++
       [OutMsg.inputAudioCommit, OutMsg.responseCreate none])

/-- handle_audio_chunk: bail out without a websocket; drop the chunk when
conversion fails (None) or is falsy (empty text); otherwise append and,
when the buffer has reached the flush threshold and no response is
awaited, flush. -/
def handleAudioChunk (s : Bridge) (base64Payload : String) : Bridge × List OutMsg :=
  if s.openaiWs = false then (s, [])
  else
    match convertTwilioToOpenai base64Payload with
    | none => (s, [])
    | some converted =>
        if converted = "" then (s, [])
        else
          let s1 := { s with buffer := s.buffer ++ [converted] }
          if s1.flushThreshold ≤ s1.buffer.length ∧ s1.waitingForResponse = false
          then flushAudioBuffer s1
          else (s1, [])

/-- _send_audio_to_twilio: skip falsy payloads and failed conversions,
otherwise emit one media frame tagged with the stream id. -/
def sendAudioToTwilioWs (s : Bridge) (base64Audio : Option String) : List TwMsg :=
  match base64Audio with
  | none => []
  | some a =>
      if a = "" then []
      else
        match convertOpenaiToTwilioAudio a with
        | none => []
        | some converted =>
            if converted = "" then []
            else [TwMsg.media s.streamSid converted]

/-- Events the background drain task reads from the model websocket, as
discriminated in _forward_openai_events. -/
inductive OAIEvent where
  | audioDelta (delta : Option String)
  | responseCompleted
  | errorEvent
  | other (t : String)
deriving DecidableEq, Repr

/-- One iteration of _forward_openai_events: forward audio deltas to the
caller, on response.completed clear the waiting flag and flush a
non-empty buffer, log errors, ignore everything else. -/
def handleOpenaiEvent (s : Bridge) (e : OAIEvent) : Bridge × List OutMsg × List TwMsg :=
  match e with
  | OAIEvent.audioDelta d => (s, [], sendAudioToTwilioWs s d)
  | OAIEvent.responseCompleted =>
      let s1 := { s with waitingForResponse := false }
      if s1.buffer ≠ [] then
        let r := flushAudioBuffer s1
        (r.1, r.2, [])
      else (s1, [], [])
  | OAIEvent.errorEvent => (s, [], [])
  | OAIEvent.other _ => (s, [], [])

/-- connect: open the model websocket, send session.update, start the
background task, send the initial response.create with the prompt as
instructions, and mark a response as awaited. -/
def connect (s : Bridge) : Bridge × List OutMsg :=
  ({ s with openaiWs := true, bridgeTask := true, waitingForResponse := true },
   [OutMsg.sessionUpdate s.prompt s.voice, OutMsg.responseCreate (some s.prompt)])

/-- close: flush first when the buffer is non-empty, the websocket is
present and no response is awaited; cancel the background task (the
handle stays set, cancellation sends nothing); close the websocket if
present and drop the handle. -/
def close (s : Bridge) : Bridge × List OutMsg :=
  let r1 := if s.buffer ≠ [] ∧ s.openaiWs = true ∧ s.waitingForResponse = false
            then flushAudioBuffer s else (s, [])
  if r1.1.openaiWs = true then
    ({ r1.1 with openaiWs := false }, r1.2 ++ [OutMsg.wsClose])
  else (r1.1, r1.2)

/-- An event touching the bridge during a call: an inbound audio chunk
handed to handle_audio_chunk, or a model event handled by the drain
task. -/
inductive SessEvent where
  | audio (payload : String)
  | oai (e : OAIEvent)
deriving DecidableEq, Repr

/-- Dispatch one session event. -/
def stepBridge (s : Bridge) (e : SessEvent) : Bridge × List OutMsg × List TwMsg :=
  match e with
  | SessEvent.audio p =>
      let r := handleAudioChunk s p
      (r.1, r.2, [])
  | SessEvent.oai e => handleOpenaiEvent s e

/-- Run a sequence of session events, accumulating all messages sent to
either side in order. -/
def runBridge (s : Bridge) : List SessEvent → Bridge × List OutMsg × List TwMsg
  | [] => (s, [], [])
  | e :: es =>
      let r1 := stepBridge s e
      let r2 := runBridge r1.1 es
      (r2.1, r1.2.1 ++ r2.2.1, r1.2.2 ++ r2.2.2)

/-!
The Twilio-side receive loop of app/main.py (media_stream): before the
start event constructs and connects a bridge, the loop variable holding
it is None.
-/

/-- Inbound Twilio control events as discriminated in media_stream.  The
media payload is optional because the payload field may be absent or
empty. -/
inductive TwilioEvent where
  | connected
  | start (streamSid prompt voice : String)
  | media (payload : Option String)
  | stop
deriving DecidableEq, Repr

/-- One iteration of the media_stream receive loop: the current optional
bridge, the event, and the resulting bridge, messages to the model,
frames to Twilio, and whether the loop continues.  A media event with no
bridge falls through the `elif event_type == "media" and bridge` guard:
nothing happens and the loop continues. -/
def mediaStreamStep (br : Option Bridge) (e : TwilioEvent) :
    Option Bridge × List OutMsg × List TwMsg × Bool :=
  match e with
  | TwilioEvent.connected => (br, [], [], true)
  | TwilioEvent.start sid prompt voice =>
      let r := connect (mkBridge sid prompt voice)
      (some r.1, r.2, [TwMsg.mark sid "bridge-ready"], true)
  | TwilioEvent.media p =>
      match br with
      | none => (br, [], [], true)
      | some b =>
          match p with
          | none => (some b, [], [], true)
          | some a =>
              if a = "" then (some b, [], [], true)
              else
                let r := handleAudioChunk b a
                (some r.1, r.2, [], true)
  | TwilioEvent.stop => (br, [], [], false)

/-!
Shared lemmas about the bridge operations.
-/

/-- Characterisation of a productive flush: non-empty buffer and live
websocket give one append per chunk in order, one commit, one
response.create, the waiting flag set and the buffer cleared. -/
theorem flushAudioBuffer_spec (s : Bridge) (hb : s.buffer ≠ []) (hw : s.openaiWs = true) :
    flushAudioBuffer s =
      ({ s with waitingForResponse := true, buffer := [] },
       s.buffer.map OutMsg.inputAudioAppend ++
         [OutMsg.inputAudioCommit, OutMsg.responseCreate none]) := by
  unfold flushAudioBuffer
  rw [if_neg]
  simp [hb, hw]

/-- A flush never touches the websocket handle. -/
theorem flushAudioBuffer_openaiWs (s : Bridge) :
    (flushAudioBuffer s).1.openaiWs = s.openaiWs := by
  unfold flushAudioBuffer
  split <;> rfl

/-- Unfolding of handle_audio_chunk when the websocket is live and the
conversion succeeds with a non-falsy chunk. -/
theorem handleAudioChunk_eq (s : Bridge) (p c : String) (hws : s.openaiWs = true)
    (hc : convertTwilioToOpenai p = some c) (hce : c ≠ "") :
    handleAudioChunk s p =
      if s.flushThreshold ≤ s.buffer.length + 1 ∧ s.waitingForResponse = false then
        ({ s with waitingForResponse := true, buffer := [] },
         (s.buffer ++ [c]).map OutMsg.inputAudioAppend ++
           [OutMsg.inputAudioCommit, OutMsg.responseCreate none])
      else ({ s with buffer := s.buffer ++ [c] }, []) := by
  unfold handleAudioChunk
  rw [hws, hc]
  simp only [Bool.true_eq_false, if_false, hce, reduceIte]
  split
  · next h =>
      rw [flushAudioBuffer_spec _ (by simp) (by simp [hws])]
      simp only [List.length_append, List.length_singleton] at h
      rw [if_pos (by simpa using h)]
  · next h =>
      simp only [List.length_append, List.length_singleton] at h
      rw [if_neg (by simpa using h)]

/-- handle_audio_chunk with the waiting flag set never flushes: the flag
stays set, the buffer never shrinks, nothing is sent. -/
theorem handleAudioChunk_waiting (s : Bridge) (p : String)
    (hw : s.waitingForResponse = true) :
    (handleAudioChunk s p).1.waitingForResponse = true ∧
    s.buffer.length ≤ (handleAudioChunk s p).1.buffer.length ∧
    (handleAudioChunk s p).2 = [] := by
  unfold handleAudioChunk
  split
  · exact ⟨hw, Nat.le_refl _, rfl⟩
  · cases hc : convertTwilioToOpenai p with
    | none => exact ⟨hw, Nat.le_refl _, rfl⟩
    | some c =>
        by_cases hce : c = ""
        · simp [hce, hw]
        · simp [hce, hw]

/-!
Claim theorems for the turn-buffer protocol.
-/

/-- Claim C2: flushing a non-empty buffer with a live model websocket
sends exactly one input_audio_buffer.append per pending chunk, in buffer
order, then exactly one input_audio_buffer.commit and exactly one
response.create, sets the awaiting flag and leaves the buffer empty. -/
theorem c2_flush_protocol (s : Bridge) (hb : s.buffer ≠ []) (hw : s.openaiWs = true) :
    (flushAudioBuffer s).2 =
      s.buffer.map OutMsg.inputAudioAppend ++
        [OutMsg.inputAudioCommit, OutMsg.responseCreate none] ∧
    (flushAudioBuffer s).1 = { s with waitingForResponse := true, buffer := [] } := by
  rw [flushAudioBuffer_spec s hb hw]
  exact ⟨rfl, rfl⟩

/-- Witness for C2 at a concrete two-chunk buffer. -/
theorem c2_flush_protocol_witness :
    (flushAudioBuffer { mkBridge "sid" "p" "v" with openaiWs := true, buffer := ["a", "b"] }).2 =
      [OutMsg.inputAudioAppend "a", OutMsg.inputAudioAppend "b",
       OutMsg.inputAudioCommit, OutMsg.responseCreate none] ∧
    (flushAudioBuffer { mkBridge "sid" "p" "v" with openaiWs := true, buffer := ["a", "b"] }).1 =
      { mkBridge "sid" "p" "v" with openaiWs := true, waitingForResponse := true } := by
  have h := c2_flush_protocol
    { mkBridge "sid" "p" "v" with openaiWs := true, buffer := ["a", "b"] }
    (by decide) (by decide)
  exact ⟨h.1, h.2⟩

/-- Claim C8: flushing with an empty buffer, or without a model
websocket, sends nothing and leaves the whole session state unchanged. -/
theorem c8_flush_empty_noop (s : Bridge) (h : s.buffer = [] ∨ s.openaiWs = false) :
    flushAudioBuffer s = (s, []) := by
  unfold flushAudioBuffer
  rw [if_pos h]

/-- Witness for C8 at a concrete empty-buffer state. -/
theorem c8_flush_empty_noop_witness :
    flushAudioBuffer { mkBridge "sid" "p" "v" with openaiWs := true } =
      ({ mkBridge "sid" "p" "v" with openaiWs := true }, []) :=
  c8_flush_empty_noop _ (Or.inl (by decide))

/-- Claim C5: when the conversion of an inbound chunk fails,
handle_audio_chunk completes (it is a total function of the model),
leaves the buffer and the whole session state unchanged and sends
nothing. -/
theorem c5_conversion_failure_recovered (s : Bridge) (p : String)
    (h : convertTwilioToOpenai p = none) :
    handleAudioChunk s p = (s, []) := by
  unfold handleAudioChunk
  split
  · rfl
  · rw [h]

/-- Witness for C5: a one-character payload is undecodable base64. -/
theorem c5_conversion_failure_recovered_witness :
    handleAudioChunk { mkBridge "sid" "p" "v" with openaiWs := true, buffer := ["x"] } "!" =
      ({ mkBridge "sid" "p" "v" with openaiWs := true, buffer := ["x"] }, []) :=
  c5_conversion_failure_recovered _ "!" (by decide)

/-- Claim C6: close is idempotent: whatever the session state, a second
close after a first one changes nothing and sends nothing to the model
connection, in particular no duplicate flush and no duplicate close of
the websocket. -/
theorem c6_close_idempotent (s : Bridge) :
    close (close s).1 = ((close s).1, []) := by
  have hws : (close s).1.openaiWs = false := by
    simp only [close]
    by_cases hC : s.buffer ≠ [] ∧ s.openaiWs = true ∧ s.waitingForResponse = false
    · rw [if_pos hC, if_pos (by rw [flushAudioBuffer_openaiWs]; exact hC.2.1)]
    · rw [if_neg hC]
      by_cases hw2 : s.openaiWs = true
      · rw [if_pos hw2]
      · rw [if_neg hw2]
        simpa using hw2
  generalize ht : (close s).1 = t at hws ⊢
  simp only [close]
  rw [if_neg (by simp [hws]), if_neg (by simp [hws])]

/-- Claim C9: a media event arriving before any bridge exists (before
the start event) is ignored: no bridge is created, no audio is buffered
or forwarded, nothing is sent to either side, and the receive loop
continues. -/
theorem c9_media_before_session (p : Option String) :
    mediaStreamStep none (TwilioEvent.media p) = (none, [], [], true) := rfl

/-- Claim C3: handling response.completed with a live websocket: with a
non-empty pending buffer the whole buffer is flushed at once, whatever
the flush threshold, and the awaiting flag ends up true again; with an
empty buffer only the awaiting flag is cleared and nothing is sent. -/
theorem c3_completed_drains_buffer (s : Bridge) (hw : s.openaiWs = true) :
    (s.buffer ≠ [] →
      handleOpenaiEvent s OAIEvent.responseCompleted =
        ({ s with waitingForResponse := true, buffer := [] },
         s.buffer.map OutMsg.inputAudioAppend ++
           [OutMsg.inputAudioCommit, OutMsg.responseCreate none], [])) ∧
    (s.buffer = [] →
      handleOpenaiEvent s OAIEvent.responseCompleted =
        ({ s with waitingForResponse := false }, [], [])) := by
  constructor
  · intro hb
    unfold handleOpenaiEvent
    rw [if_pos (by simpa using hb)]
    rw [flushAudioBuffer_spec _ (by simpa using hb) (by simpa using hw)]
  · intro hb
    unfold handleOpenaiEvent
    rw [if_neg (by simpa using hb)]

/-- Witness for C3 at a concrete three-chunk buffer and awaiting flag
set, matching the scenario of the specification. -/
theorem c3_completed_drains_buffer_witness :
    handleOpenaiEvent
        { mkBridge "sid" "p" "v" with openaiWs := true, waitingForResponse := true,
                                      buffer := ["a", "b", "c"] } OAIEvent.responseCompleted =
      ({ mkBridge "sid" "p" "v" with openaiWs := true, waitingForResponse := true },
       [OutMsg.inputAudioAppend "a", OutMsg.inputAudioAppend "b", OutMsg.inputAudioAppend "c",
        OutMsg.inputAudioCommit, OutMsg.responseCreate none], []) :=
  (c3_completed_drains_buffer
    { mkBridge "sid" "p" "v" with openaiWs := true, waitingForResponse := true,
                                  buffer := ["a", "b", "c"] } (by decide)).1 (by decide)

/-- Claim C1: across any sequence of append and non-completion events
starting with the awaiting flag set, the flag stays set, the pending
buffer never shrinks and no commit (hence no flush) is ever sent; and
a flush triggered by handle_audio_chunk can only happen when the
awaiting flag is false at its start. -/
theorem c1_no_flush_while_awaiting :
    (∀ (s : Bridge) (es : List SessEvent), s.waitingForResponse = true →
      (∀ e ∈ es, e ≠ SessEvent.oai OAIEvent.responseCompleted) →
      (runBridge s es).1.waitingForResponse = true ∧
      s.buffer.length ≤ (runBridge s es).1.buffer.length ∧
      OutMsg.inputAudioCommit ∉ (runBridge s es).2.1) ∧
    (∀ (s : Bridge) (p : String),
      OutMsg.inputAudioCommit ∈ (handleAudioChunk s p).2 → s.waitingForResponse = false) := by
  constructor
  · intro s es
    induction es generalizing s with
    | nil => intro hw _; exact ⟨hw, Nat.le_refl _, by simp [runBridge]⟩
    | cons e es ih =>
        intro hw hnc
        have hnc1 : e ≠ SessEvent.oai OAIEvent.responseCompleted := hnc e (by simp)
        have hnc2 : ∀ e ∈ es, e ≠ SessEvent.oai OAIEvent.responseCompleted :=
          fun x hx => hnc x (by simp [hx])
        cases e with
        | audio p =>
            have h1 := handleAudioChunk_waiting s p hw
            have ih1 := ih (handleAudioChunk s p).1 h1.1 hnc2
            refine ⟨ih1.1, le_trans h1.2.1 ih1.2.1, ?_⟩
            simp only [runBridge, stepBridge, h1.2.2, List.nil_append]
            exact ih1.2.2
        | oai ev =>
            cases ev with
            | audioDelta d =>
                have ih1 := ih s hw hnc2
                refine ⟨ih1.1, ih1.2.1, ?_⟩
                simp only [runBridge, stepBridge, handleOpenaiEvent, List.nil_append]
                exact ih1.2.2
            | responseCompleted => exact absurd rfl hnc1
            | errorEvent =>
                have ih1 := ih s hw hnc2
                refine ⟨ih1.1, ih1.2.1, ?_⟩
                simp only [runBridge, stepBridge, handleOpenaiEvent, List.nil_append]
                exact ih1.2.2
            | other t =>
                have ih1 := ih s hw hnc2
                refine ⟨ih1.1, ih1.2.1, ?_⟩
                simp only [runBridge, stepBridge, handleOpenaiEvent, List.nil_append]
                exact ih1.2.2
  · intro s p hmem
    by_cases hw : s.waitingForResponse = false
    · exact hw
    · exfalso
      have hw' : s.waitingForResponse = true := by
        cases h : s.waitingForResponse
        · exact absurd h hw
        · rfl
      rw [(handleAudioChunk_waiting s p hw').2.2] at hmem
      exact List.not_mem_nil _ hmem

/-- Witness for C1: a concrete awaiting session fed one audio chunk and
one delta event keeps awaiting, keeps its chunk and commits nothing. -/
theorem c1_no_flush_while_awaiting_witness :
    ((runBridge { mkBridge "sid" "p" "v" with openaiWs := true, waitingForResponse := true, buffer := ["x"] }
        [SessEvent.audio "pU3KGCU=", SessEvent.oai (OAIEvent.audioDelta none)]).1.waitingForResponse = true ∧
      ({ mkBridge "sid" "p" "v" with openaiWs := true, waitingForResponse := true, buffer := ["x"] } : Bridge).buffer.length ≤
        (runBridge { mkBridge "sid" "p" "v" with openaiWs := true, waitingForResponse := true, buffer := ["x"] }
          [SessEvent.audio "pU3KGCU=", SessEvent.oai (OAIEvent.audioDelta none)]).1.buffer.length ∧
      OutMsg.inputAudioCommit ∉
        (runBridge { mkBridge "sid" "p" "v" with openaiWs := true, waitingForResponse := true, buffer := ["x"] }
          [SessEvent.audio "pU3KGCU=", SessEvent.oai (OAIEvent.audioDelta none)]).2.1) ∧
    ({ mkBridge "sid" "p" "v" with openaiWs := true, buffer := ["a", "b", "c", "d", "e", "f", "g"] } : Bridge).waitingForResponse = false :=
  ⟨c1_no_flush_while_awaiting.1
      { mkBridge "sid" "p" "v" with openaiWs := true, waitingForResponse := true, buffer := ["x"] }
      [SessEvent.audio "pU3KGCU=", SessEvent.oai (OAIEvent.audioDelta none)] rfl (by decide),
   c1_no_flush_while_awaiting.2
      { mkBridge "sid" "p" "v" with openaiWs := true, buffer := ["a", "b", "c", "d", "e", "f", "g"] }
      "pU3KGCU=" (by decide)⟩

/-- The session state reached by connecting a fresh bridge and then
handling one response.completed with an empty buffer: live websocket,
empty buffer, flush threshold 8 and no response awaited. -/
def c4Start : Bridge :=
  (handleOpenaiEvent (connect (mkBridge "sid" "p" "v")).1 OAIEvent.responseCompleted).1

/-- Claim C4: with the flush threshold of 8 and no completion event,
feeding ten valid chunks one at a time flushes exactly once, at the
eighth append, and leaves exactly the remaining two chunks pending; and
in general an append triggers a flush exactly when it brings the pending
count up to (at least) the threshold while no response is awaited. -/
theorem c4_threshold_flush :
    ((runBridge c4Start (List.replicate 7 (SessEvent.audio "pU3KGCU="))).2.1.count
        OutMsg.inputAudioCommit = 0 ∧
      (runBridge c4Start (List.replicate 8 (SessEvent.audio "pU3KGCU="))).2.1.count
        OutMsg.inputAudioCommit = 1 ∧
      (runBridge c4Start (List.replicate 8 (SessEvent.audio "pU3KGCU="))).1.buffer = [] ∧
      (runBridge c4Start (List.replicate 10 (SessEvent.audio "pU3KGCU="))).2.1.count
        OutMsg.inputAudioCommit = 1 ∧
      (runBridge c4Start (List.replicate 10 (SessEvent.audio "pU3KGCU="))).1.buffer.length = 2) ∧
    (∀ (s : Bridge) (p c : String), s.openaiWs = true →
      convertTwilioToOpenai p = some c → c ≠ "" →
      (OutMsg.inputAudioCommit ∈ (handleAudioChunk s p).2 ↔
        (s.flushThreshold ≤ s.buffer.length + 1 ∧ s.waitingForResponse = false))) := by
  constructor
  · exact ⟨by decide, by decide, by decide, by decide, by decide⟩
  · intro s p c hws hc hce
    rw [handleAudioChunk_eq s p c hws hc hce]
    by_cases h : s.flushThreshold ≤ s.buffer.length + 1 ∧ s.waitingForResponse = false
    · rw [if_pos h]
      simp [h]
    · rw [if_neg h]
      simp [h]

/-- Witness for C4 discharging the hypotheses of the general part at the
concrete reachable state and a concrete valid chunk. -/
theorem c4_threshold_flush_witness :
    OutMsg.inputAudioCommit ∈ (handleAudioChunk c4Start "pU3KGCU=").2 ↔
      (c4Start.flushThreshold ≤ c4Start.buffer.length + 1 ∧
        c4Start.waitingForResponse = false) :=
  c4_threshold_flush.2 c4Start "pU3KGCU="
    ((convertTwilioToOpenai "pU3KGCU=").getD "") (by decide) (by decide) (by decide)

/-- The audio payloads of the append frames in a message list. -/
def appendsOf (ms : List OutMsg) : List String :=
  ms.filterMap (fun m => match m with
    | OutMsg.inputAudioAppend a => some a
    | _ => none)

/-- The chunk that handle_audio_chunk buffers for a payload: the
conversion result when it succeeds and is not falsy. -/
def convSuccess (p : String) : Option String :=
  match convertTwilioToOpenai p with
  | none => none
  | some c => if c = "" then none else some c

theorem appendsOf_append (a b : List OutMsg) :
    appendsOf (a ++ b) = appendsOf a ++ appendsOf b := by
  unfold appendsOf
  exact List.filterMap_append a b _

theorem appendsOf_appends (l : List String) :
    appendsOf (l.map OutMsg.inputAudioAppend) = l := by
  induction l with
  | nil => rfl
  | cons x xs ih => simpa [appendsOf] using ih

/-- Claim C10: per-chunk conversion is deterministic and stateless in
both directions.  Inbound: over any run of audio events from any live
session state, the chunks appended for the model (those already sent
plus those still buffered) are exactly the fresh-state conversion of
each payload in order, independent of the session state and of the other
chunks.  Outbound: a run of audio-delta events leaves the state
untouched and sends exactly the per-delta conversion of each delta. -/
theorem c10_conversion_stateless :
    (∀ (s : Bridge) (ps : List String), s.openaiWs = true →
      appendsOf (runBridge s (ps.map SessEvent.audio)).2.1 ++
          (runBridge s (ps.map SessEvent.audio)).1.buffer =
        s.buffer ++ ps.filterMap convSuccess) ∧
    (∀ (s : Bridge) (ds : List (Option String)),
      runBridge s (ds.map (fun d => SessEvent.oai (OAIEvent.audioDelta d))) =
        (s, [], ds.flatMap (sendAudioToTwilioWs s))) := by
  constructor
  · intro s ps
    induction ps generalizing s with
    | nil =>
        intro _
        simp [runBridge, appendsOf]
    | cons p ps ih =>
        intro hws
        simp only [List.map_cons, runBridge, stepBridge]
        cases hc : convertTwilioToOpenai p with
        | none =>
            have hh : handleAudioChunk s p = (s, []) := by
              unfold handleAudioChunk
              rw [hws, hc]
              simp
            rw [hh]
            simp only [List.filterMap_cons, convSuccess, hc]
            simpa [appendsOf] using ih s hws
        | some c =>
            by_cases hce : c = ""
            · have hh : handleAudioChunk s p = (s, []) := by
                unfold handleAudioChunk
                rw [hws, hc]
                simp [hce]
              rw [hh]
              simp only [List.filterMap_cons, convSuccess, hc, hce, if_pos rfl]
              simpa [appendsOf] using ih s hws
            · rw [handleAudioChunk_eq s p c hws hc hce]
              simp only [List.filterMap_cons, convSuccess, hc, if_neg hce]
              by_cases hg : s.flushThreshold ≤ s.buffer.length + 1 ∧
                  s.waitingForResponse = false
              · rw [if_pos hg]
                have ihx := ih { s with waitingForResponse := true, buffer := [] } (by simpa using hws)
                simp only at ihx
                have h2 : appendsOf [OutMsg.inputAudioCommit, OutMsg.responseCreate none] = [] := rfl
                simp only [appendsOf_append, appendsOf_appends, h2, List.append_nil,
                  List.nil_append, List.append_assoc]
                rw [ihx]
                simp
              · rw [if_neg hg]
                have ihx := ih { s with buffer := s.buffer ++ [c] } (by simpa using hws)
                simp only at ihx
                simp only [List.nil_append]
                rw [ihx]
                simp
  · intro s ds
    induction ds with
    | nil => rfl
    | cons d ds ih =>
        simp only [List.map_cons, runBridge, stepBridge, handleOpenaiEvent, List.flatMap_cons]
        rw [ih]
        simp

/-- Witness for C10 at a concrete session and chunk list. -/
theorem c10_conversion_stateless_witness :
    appendsOf (runBridge { mkBridge "sid" "p" "v" with openaiWs := true, buffer := ["x"] }
        (["pU3KGCU=", "!"].map SessEvent.audio)).2.1 ++
      (runBridge { mkBridge "sid" "p" "v" with openaiWs := true, buffer := ["x"] }
        (["pU3KGCU=", "!"].map SessEvent.audio)).1.buffer =
      ({ mkBridge "sid" "p" "v" with openaiWs := true, buffer := ["x"] } : Bridge).buffer ++
        (["pU3KGCU=", "!"].filterMap convSuccess) :=
  c10_conversion_stateless.1
    { mkBridge "sid" "p" "v" with openaiWs := true, buffer := ["x"] }
    ["pU3KGCU=", "!"] (by decide)

/-!
Length preservation of the audio round trip (claim C7).  First the
base64 codec: decoding inverts encoding on byte lists.
-/

theorem decodeChar_encodeChar : ∀ k, k < 64 → decodeChar (encodeChar k) = some k := by
  decide

theorem encodeChar_ne_pad : ∀ k, k < 64 → ¬(encodeChar k = '=') := by
  decide

theorem b64_decode_encode :
    ∀ bs : List Nat, (∀ x ∈ bs, x < 256) →
      b64decodeGroups (b64encodeGroups bs) = some bs := by
  intro bs
  induction bs using b64encodeGroups.induct with
  | case1 => intro _; rfl
  | case2 a =>
      intro h
      have ha : a < 256 := h a (by simp)
      simp only [b64encodeGroups, b64decodeGroups]
      rw [decodeChar_encodeChar (a / 4) (by omega),
        decodeChar_encodeChar (a % 4 * 16) (by omega)]
      simp
      omega
  | case3 a b =>
      intro h
      have ha : a < 256 := h a (by simp)
      have hb : b < 256 := h b (by simp)
      simp only [b64encodeGroups, b64decodeGroups,
        decodeChar_encodeChar (a / 4) (by omega),
        decodeChar_encodeChar (a % 4 * 16 + b / 16) (by omega),
        decodeChar_encodeChar (b % 16 * 4) (by omega),
        if_neg (encodeChar_ne_pad (b % 16 * 4) (by omega))]
      simp
      omega
  | case4 a b c rest ih =>
      intro h
      have ha : a < 256 := h a (by simp)
      have hb : b < 256 := h b (by simp)
      have hc : c < 256 := h c (by simp)
      have hrest : ∀ x ∈ rest, x < 256 := fun x hx => h x (by simp [hx])
      simp only [b64encodeGroups, b64decodeGroups,
        decodeChar_encodeChar (a / 4) (by omega),
        decodeChar_encodeChar (a % 4 * 16 + b / 16) (by omega),
        decodeChar_encodeChar (b % 16 * 4 + c / 64) (by omega),
        decodeChar_encodeChar (c % 64) (by omega),
        if_neg (encodeChar_ne_pad (b % 16 * 4 + c / 64) (by omega)),
        if_neg (encodeChar_ne_pad (c % 64) (by omega)),
        ih hrest]
      simp
      omega

theorem samplesToBytes_length (xs : List Int) :
    (samplesToBytes xs).length = 2 * xs.length := by
  induction xs with
  | nil => rfl
  | cons x xs ih =>
      simp only [samplesToBytes, List.flatMap_cons] at ih ⊢
      simp only [List.length_append, ih, sampleToBytePair, List.length_cons]
      simp
      omega

theorem samplesToBytes_lt (xs : List Int) : ∀ y ∈ samplesToBytes xs, y < 256 := by
  induction xs with
  | nil => intro y hy; simp [samplesToBytes] at hy
  | cons x xs ih =>
      intro y hy
      simp only [samplesToBytes, List.flatMap_cons, List.mem_append] at hy
      rcases hy with hy | hy
      · have hv : (Int.emod x 65536).toNat < 65536 := by
          have h0 : x % 65536 = Int.emod x 65536 := rfl
          rw [← h0]
          omega
        simp only [sampleToBytePair, List.mem_cons, List.mem_singleton] at hy
        rcases hy with rfl | rfl | h
        · omega
        · omega
        · simp at h
      · exact ih y hy

theorem bytesToSamples_samplesToBytes (xs : List Int) :
    ∃ ys, bytesToSamples (samplesToBytes xs) = some ys ∧ ys.length = xs.length := by
  induction xs with
  | nil => exact ⟨[], rfl, rfl⟩
  | cons x xs ih =>
      obtain ⟨ys, h1, h2⟩ := ih
      have hsb : samplesToBytes (x :: xs) =
          (Int.emod x 65536).toNat % 256 :: (Int.emod x 65536).toNat / 256 ::
            samplesToBytes xs := by
        simp [samplesToBytes, sampleToBytePair]
      rw [hsb]
      simp only [bytesToSamples, h1, Option.map_some]
      exact ⟨_, rfl, by simp [h2]⟩

theorem ratecvEmit_neg (inr : Nat) (outr p c d : Int) (hd : d < 0) :
    ratecvEmit inr outr p c d = ([], d) := by
  unfold ratecvEmit
  unfold ratecvEmitFuel
  rw [if_pos hd]

theorem ratecvEmit_zero (inr : Nat) (outr p c : Int) :
    (ratecvEmit inr outr p c 0).1.length = 1 ∧
    (ratecvEmit inr outr p c 0).2 = 0 - (inr : Int) := by
  constructor <;>
    simp [ratecvEmit, ratecvEmitFuel]

theorem ratecvEmit_two_1_3 (p c : Int) :
    (ratecvEmit 1 3 p c 2).1.length = 3 ∧ (ratecvEmit 1 3 p c 2).2 = -1 := by
  constructor <;>
    · simp only [ratecvEmit]
      norm_num [ratecvEmitFuel]

theorem ratecvGo_up_aux : ∀ (xs : List Int) (c : Int),
    (ratecvGo 1 3 c (-1) xs).length = 3 * xs.length := by
  intro xs
  induction xs with
  | nil => intro c; rfl
  | cons x xs ih =>
      intro c
      simp only [ratecvGo]
      rw [show (-1 : Int) + 3 = 2 by norm_num]
      rw [List.length_append, (ratecvEmit_two_1_3 c x).1, (ratecvEmit_two_1_3 c x).2, ih x]
      simp only [List.length_cons]
      omega

theorem ratecvGo_up : ∀ (xs : List Int) (c : Int),
    (ratecvGo 1 3 c (-3) xs).length = 3 * xs.length - 2 := by
  intro xs c
  cases xs with
  | nil => rfl
  | cons x xs =>
      simp only [ratecvGo]
      rw [show (-3 : Int) + 3 = 0 by norm_num]
      rw [List.length_append, (ratecvEmit_zero 1 3 c x).1, (ratecvEmit_zero 1 3 c x).2]
      rw [show (0 : Int) - (1 : Nat) = -1 by norm_num]
      rw [ratecvGo_up_aux xs x]
      simp only [List.length_cons]
      omega

theorem ratecvGo_down : ∀ (xs : List Int) (c : Int),
    (ratecvGo 3 1 c (-3) xs).length = xs.length / 3 ∧
    (ratecvGo 3 1 c (-2) xs).length = (xs.length + 1) / 3 ∧
    (ratecvGo 3 1 c (-1) xs).length = (xs.length + 2) / 3 := by
  intro xs
  induction xs with
  | nil => intro c; exact ⟨rfl, rfl, rfl⟩
  | cons x xs ih =>
      intro c
      refine ⟨?_, ?_, ?_⟩
      · simp only [ratecvGo]
        rw [show (-3 : Int) + 1 = -2 by norm_num]
        rw [ratecvEmit_neg 3 1 c x (-2) (by norm_num)]
        simp only [List.length_append, List.length_nil, Nat.zero_add, List.length_cons]
        rw [(ih x).2.1]
      · simp only [ratecvGo]
        rw [show (-2 : Int) + 1 = -1 by norm_num]
        rw [ratecvEmit_neg 3 1 c x (-1) (by norm_num)]
        simp only [List.length_append, List.length_nil, Nat.zero_add, List.length_cons]
        rw [(ih x).2.2]
      · simp only [ratecvGo]
        rw [show (-1 : Int) + 1 = 0 by norm_num]
        rw [List.length_append, (ratecvEmit_zero 3 1 c x).1, (ratecvEmit_zero 3 1 c x).2]
        rw [show (0 : Int) - (3 : Nat) = -3 by norm_num]
        rw [(ih x).1]
        simp only [List.length_cons]
        omega

theorem natGcd_8000_24000 : natGcd 8000 24000 = 8000 := by decide

theorem natGcd_24000_8000 : natGcd 24000 8000 = 8000 := by decide

/-- ratecv at the upsampling rates of the bridge: reduced ratio one to
three, started at d = -3. -/
theorem audioop_ratecv_up (bs : List Nat) :
    audioop_ratecv bs 8000 24000 =
      (bytesToSamples bs).map (fun xs => samplesToBytes (ratecvGo 1 3 0 (-3) xs)) := by
  unfold audioop_ratecv
  rw [if_neg (by norm_num)]
  cases h : bytesToSamples bs with
  | none => rfl
  | some xs =>
      simp only [natGcd_8000_24000, Option.map_some]
      norm_num

/-- ratecv at the downsampling rates of the bridge: reduced ratio three
to one, started at d = -1. -/
theorem audioop_ratecv_down (bs : List Nat) :
    audioop_ratecv bs 24000 8000 =
      (bytesToSamples bs).map (fun xs => samplesToBytes (ratecvGo 3 1 0 (-1) xs)) := by
  unfold audioop_ratecv
  rw [if_neg (by norm_num)]
  cases h : bytesToSamples bs with
  | none => rfl
  | some xs =>
      simp only [natGcd_24000_8000, Option.map_some]
      norm_num

theorem st_14linear2ulaw_lt (z : Int) : st_14linear2ulaw z < 256 := by
  have h256 : (256 : Nat) = 2 ^ 8 := by norm_num
  have key : ∀ (mask b : Nat), mask < 256 →
      (if 8 ≤ segUend.findIdx (fun e => b ≤ e) then 0x7F ^^^ mask
       else ((segUend.findIdx (fun e => b ≤ e) <<< 4) |||
             ((b >>> (segUend.findIdx (fun e => b ≤ e) + 1)) &&& 0xF)) ^^^ mask) < 256 := by
    intro mask b hmask
    rw [h256] at hmask ⊢
    by_cases h : 8 ≤ segUend.findIdx (fun e => b ≤ e)
    · rw [if_pos h]
      exact Nat.xor_lt_two_pow (by norm_num) hmask
    · rw [if_neg h]
      refine Nat.xor_lt_two_pow (Nat.or_lt_two_pow ?_ ?_) hmask
      · rw [Nat.shiftLeft_eq]
        have hs : segUend.findIdx (fun e => b ≤ e) < 8 := by omega
        calc segUend.findIdx (fun e => b ≤ e) * 2 ^ 4 < 8 * 2 ^ 4 := by omega
          _ ≤ 2 ^ 8 := by norm_num
      · have hand := Nat.and_le_right
          (n := b >>> (segUend.findIdx (fun e => b ≤ e) + 1)) (m := 0xF)
        calc b >>> (segUend.findIdx (fun e => b ≤ e) + 1) &&& 0xF ≤ 0xF := hand
          _ < 2 ^ 8 := by norm_num
  simp only [st_14linear2ulaw]
  apply key
  split <;> norm_num

/-- Claim C7: for every valid telephony chunk (base64 text decoding to
mu-law bytes), converting to the model format and back succeeds and
yields a chunk with exactly the same sample count; the sample values are
subject only to codec quantization, which this statement does not
constrain. -/
theorem c7_roundtrip_sample_count (p : String) (mu : List Nat)
    (h : b64decode p = some mu) :
    ∃ q r mu2, convertTwilioToOpenai p = some q ∧
      convertOpenaiToTwilioAudio q = some r ∧
      b64decode r = some mu2 ∧ mu2.length = mu.length := by
  obtain ⟨ys, hys, hyslen⟩ := bytesToSamples_samplesToBytes (mu.map st_ulaw2linear16)
  have hyslen2 : ys.length = mu.length := by simpa using hyslen
  have hupLen : (ratecvGo 1 3 0 (-3) ys).length = 3 * mu.length - 2 := by
    rw [ratecvGo_up ys 0, hyslen2]
  have ht2o : convertTwilioToOpenai p =
      some (b64encode (samplesToBytes (ratecvGo 1 3 0 (-3) ys))) := by
    simp only [convertTwilioToOpenai, h, audioop_ratecv_up, audioop_ulaw2lin, hys,
      Option.map_some, Option.map_some']
  have hdecQ : b64decode (b64encode (samplesToBytes (ratecvGo 1 3 0 (-3) ys))) =
      some (samplesToBytes (ratecvGo 1 3 0 (-3) ys)) :=
    b64_decode_encode _ (samplesToBytes_lt _)
  obtain ⟨zs, hzs, hzslen⟩ := bytesToSamples_samplesToBytes (ratecvGo 1 3 0 (-3) ys)
  have hzslen2 : zs.length = 3 * mu.length - 2 := by rw [hzslen, hupLen]
  have hdownLen : (ratecvGo 3 1 0 (-1) zs).length = (zs.length + 2) / 3 :=
    (ratecvGo_down zs 0).2.2
  obtain ⟨ws, hws2, hwslen⟩ := bytesToSamples_samplesToBytes (ratecvGo 3 1 0 (-1) zs)
  have ho2t : convertOpenaiToTwilioAudio
      (b64encode (samplesToBytes (ratecvGo 1 3 0 (-3) ys))) =
      some (b64encode (ws.map (fun s => st_14linear2ulaw (Int.fdiv s 4)))) := by
    simp only [convertOpenaiToTwilioAudio, hdecQ, audioop_ratecv_down, hzs,
      Option.map_some, Option.map_some', audioop_lin2ulaw, hws2]
  have hmu2lt : ∀ x ∈ ws.map (fun s => st_14linear2ulaw (Int.fdiv s 4)), x < 256 := by
    intro x hx
    simp only [List.mem_map] at hx
    obtain ⟨s, _, rfl⟩ := hx
    exact st_14linear2ulaw_lt _
  have hdecR : b64decode (b64encode (ws.map (fun s => st_14linear2ulaw (Int.fdiv s 4)))) =
      some (ws.map (fun s => st_14linear2ulaw (Int.fdiv s 4))) :=
    b64_decode_encode _ hmu2lt
  refine ⟨_, _, _, ht2o, ho2t, hdecR, ?_⟩
  rw [List.length_map, hwslen, hdownLen, hzslen2]
  omega

/-- Witness for C7 at a concrete five-byte mu-law chunk. -/
theorem c7_roundtrip_sample_count_witness :
    ∃ q r mu2, convertTwilioToOpenai "pU3KGCU=" = some q ∧
      convertOpenaiToTwilioAudio q = some r ∧
      b64decode r = some mu2 ∧ mu2.length = ([165, 77, 202, 24, 37] : List Nat).length :=
  c7_roundtrip_sample_count "pU3KGCU=" [165, 77, 202, 24, 37] (by decide)
